import Mathlib

/-!
# Verification of the Smart Scout state-reconciliation engine

Shallow embedding of `ema_scout.py` (RegOps Co-Pilot, Smart Scout v2.0).

Modelling conventions:
* Python dicts whose keys are the document names become association lists
  `List (String × _)`; Python guarantees the keys unique, which appears as a
  `Nodup` hypothesis where a theorem needs it.
* Raw PDF bytes are modelled by an opaque `String`.
* JSON values that occur in events are either strings or `null`, modelled by
  the inductive `J`; a serialized JSON object is an ordered list of
  key/value pairs, exactly the insertion order of the Python dict literal.
* Network effects (`requests.get`) are modelled by oracle functions
  `String → Option String`: `some bytes` is a successful (`response.ok`)
  download of the given content, `none` is a request exception or a
  non-success status.  File-system writes are collected in output lists,
  and a JSON file read back after a write returns the written value.
-/

namespace EmaScout

/-- A JSON value as it occurs in the change-log events: a string or `null`. -/
inductive J where
  | str : String → J
  | null : J
deriving DecidableEq, Repr

/-- A serialized JSON object: key/value pairs in dict insertion order. -/
abbrev Obj := List (String × J)

/-- One entry of the compact state (`document_state.json`): `{"url", "hash"}`. -/
structure DocInfo where
  url : String
  hash : String
deriving DecidableEq, Repr

/-- One entry of the full in-memory state built by
`get_current_documents_state`: `{"url", "hash", "content"}`. -/
structure FullDocInfo where
  url : String
  hash : String
  content : String
deriving DecidableEq, Repr

/-- The compact snapshot (previous state, read from `STATE_FILE`). -/
abbrev Snapshot := List (String × DocInfo)

/-- The full snapshot (current state, with raw bytes kept in memory). -/
abbrev FullSnapshot := List (String × FullDocInfo)

/-- `ARCHIVE_DIR` configuration constant. -/
def ARCHIVE_DIR : String := "_archive"

/-- The key set of a Python dict, as the list of keys in insertion order. -/
def keys {α : Type} (s : List (String × α)) : List String := s.map Prod.fst

/-- Dict item access `s[k]` (with a default that is never consulted when the
key is present, which is the only way the source accesses items). -/
def lookupD {α : Type} (d : α) (s : List (String × α)) (k : String) : α :=
  (s.lookup k).getD d

/-- `old_state[doc_name]` in `compare_states`. -/
def oldInfo (old : Snapshot) (k : String) : DocInfo :=
  lookupD ⟨"", ""⟩ old k

/-- `new_state[doc_name]` in `compare_states`. -/
def curInfo (cur : FullSnapshot) (k : String) : FullDocInfo :=
  lookupD ⟨"", "", ""⟩ cur k

/-- Lexicographic comparison of character sequences by code point: this is
how Python compares strings. -/
def leChars : List Char → List Char → Bool
  | [], _ => true
  | _ :: _, [] => false
  | a :: as, b :: bs =>
      if a < b then true
      else if b < a then false
      else leChars as bs

/-- The string order used by Python's `sorted`. -/
def pyLe (a b : String) : Prop := leChars a.data b.data = true

instance : DecidableRel pyLe := fun a b =>
  inferInstanceAs (Decidable (leChars a.data b.data = true))

theorem leChars_total : ∀ as bs, leChars as bs = true ∨ leChars bs as = true
  | [], _ => Or.inl rfl
  | _ :: _, [] => Or.inr rfl
  | a :: as, b :: bs => by
      rcases lt_trichotomy a b with h | h | h
      · exact Or.inl (by simp [leChars, h])
      · subst h
        rcases leChars_total as bs with ih | ih
        · exact Or.inl (by simp [leChars, ih])
        · exact Or.inr (by simp [leChars, ih])
      · exact Or.inr (by simp [leChars, h])

theorem leChars_trans : ∀ as bs cs, leChars as bs = true → leChars bs cs = true →
    leChars as cs = true
  | [], _, _, _, _ => rfl
  | _ :: _, [], _, h1, _ => by simp [leChars] at h1
  | _ :: _, _ :: _, [], _, h2 => by simp [leChars] at h2
  | a :: as, b :: bs, c :: cs, h1, h2 => by
      rcases lt_trichotomy a b with hab | hab | hab
      · rcases lt_trichotomy b c with hbc | hbc | hbc
        · simp [leChars, lt_trans hab hbc]
        · subst hbc; simp [leChars, hab]
        · simp [leChars, hbc, not_lt_of_lt hbc] at h2
      · subst hab
        rcases lt_trichotomy a c with hac | hac | hac
        · simp [leChars, hac]
        · subst hac
          simp only [leChars, lt_irrefl, if_false] at h1 h2 ⊢
          exact leChars_trans as bs cs h1 h2
        · simp [leChars, hac, not_lt_of_lt hac] at h2
      · simp [leChars, hab, not_lt_of_lt hab] at h1

instance : IsTotal String pyLe := ⟨fun a b => leChars_total a.data b.data⟩

instance : IsTrans String pyLe :=
  ⟨fun a b c hab hbc => leChars_trans a.data b.data c.data hab hbc⟩

/-- Python `sorted` on a list of strings (code-point lexicographic). -/
def sortStr (l : List String) : List String :=
  List.insertionSort pyLe l

/-- `sorted(new_docs - old_docs)`: names in the current snapshot only. -/
def newDocs (old : Snapshot) (cur : FullSnapshot) : List String :=
  sortStr ((keys cur).filter (fun k => decide (k ∉ keys old)))

/-- `sorted(old_docs - new_docs)`: names in the previous snapshot only. -/
def removedDocs (old : Snapshot) (cur : FullSnapshot) : List String :=
  sortStr ((keys old).filter (fun k => decide (k ∉ keys cur)))

/-- `sorted(old_docs.intersection(new_docs))`: names present in both. -/
def commonDocs (old : Snapshot) (cur : FullSnapshot) : List String :=
  sortStr ((keys old).filter (fun k => decide (k ∈ keys cur)))

/-- `doc_name.replace(' ', '_').replace('/', '_')`: both patterns are single
characters, so the two replaces act characterwise. -/
def sanitize (name : String) : String :=
  String.mk (name.data.map (fun c => if c = ' ' || c = '/' then '_' else c))

/-- `f"{today_str}_{...}_old.pdf"`. -/
def archiveFilename (today name : String) : String :=
  today ++ "_" ++ sanitize name ++ "_old.pdf"

/-- `os.path.join(ARCHIVE_DIR, archive_filename)`. -/
def archive_path (today name : String) : String :=
  ARCHIVE_DIR ++ "/" ++ archiveFilename today name

/-- The NEW event dict literal of `compare_states`. -/
def mkNew (today doc url : String) : Obj :=
  [("date", J.str today), ("type", J.str "NEW"),
   ("document", J.str doc), ("url", J.str url)]

/-- The REMOVED event dict literal of `compare_states`. -/
def mkRemoved (today doc : String) : Obj :=
  [("date", J.str today), ("type", J.str "REMOVED"), ("document", J.str doc)]

/-- The UPDATED event dict literal of `compare_states`; `arch = none` is the
Python `archive_path = None`, serialized as JSON `null`. -/
def mkUpdated (today doc newUrl : String) (arch : Option String) : Obj :=
  [("date", J.str today), ("type", J.str "UPDATED"),
   ("document", J.str doc), ("new_url", J.str newUrl),
   ("archived_old_pdf_path", match arch with | some p => J.str p | none => J.null)]

/-- The names of the intersection whose hashes differ, in the order the
`UPDATED` loop of `compare_states` acts on them. -/
def updatedDocs (old : Snapshot) (cur : FullSnapshot) : List String :=
  (commonDocs old cur).filter
    (fun d => decide ((oldInfo old d).hash ≠ (curInfo cur d).hash))

/-- The archival outcome for one updated document: the target path on a
successful re-download of the old content, `none` (Python `None`) on a
request exception or non-ok status. -/
def archOutcome (retrieve : String → Option String) (today : String)
    (old : Snapshot) (d : String) : Option String :=
  match retrieve (oldInfo old d).url with
  | some _ => some (archive_path today d)
  | none => none

/-- `compare_states(old_state, new_state)`.  Returns the change events in
emission order (NEW loop, then REMOVED loop, then UPDATED loop, each over a
`sorted` name list), paired with the archive-file writes `(path, bytes)`
performed during the UPDATED loop.  `retrieve` is the network oracle used to
re-fetch the superseded content from `old_state[doc]['url']`. -/
def compare_states (retrieve : String → Option String) (today : String)
    (old : Snapshot) (cur : FullSnapshot) :
    List Obj × List (String × String) :=
  ((newDocs old cur).map (fun d => mkNew today d (curInfo cur d).url)
     ++ (removedDocs old cur).map (fun d => mkRemoved today d)
     ++ (updatedDocs old cur).map
          (fun d => mkUpdated today d (curInfo cur d).url
                      (archOutcome retrieve today old d)),
   (updatedDocs old cur).filterMap
     (fun d => match retrieve (oldInfo old d).url with
       | some bytes => some (archive_path today d, bytes)
       | none => none))

/-- The hash-constructor attributes that Python's `hashlib` module actually
provides (`hashlib.algorithms_guaranteed`).  `sha2sha256`, the name the
source looks up, is not among them. -/
def hashlib_algorithms_guaranteed : List String :=
  ["md5", "sha1", "sha224", "sha256", "sha384", "sha512",
   "sha3_224", "sha3_256", "sha3_384", "sha3_512",
   "shake_128", "shake_256", "blake2b", "blake2s"]

/-- Attribute lookup `getattr(hashlib, attr)` restricted to the hash
constructors: looking up a name that is not an attribute of the module
raises `AttributeError`, modelled as `none`.  `digest algo content` is the
opaque hex digest of `content` under algorithm `algo` (the collaborator
`fingerprint` of the spec, kept abstract). -/
def hashlibAttr (digest : String → String → String) (attr : String) :
    Option (String → String) :=
  if attr ∈ hashlib_algorithms_guaranteed then some (digest attr) else none

/-- `get_pdf_content_hash(pdf_content)`: evaluates
`hashlib.sha2sha256(pdf_content).hexdigest()`.  The attribute lookup of
`"sha2sha256"` is performed first; `none` models the raised
`AttributeError`. -/
def get_pdf_content_hash (digest : String → String → String)
    (pdf_content : String) : Option String :=
  (hashlibAttr digest "sha2sha256").map (fun h => h pdf_content)

/-- Python dict assignment `st[k] = v`: replaces the value in place when the
key is present (keeping its position), otherwise appends the new pair. -/
def dictInsert {α : Type} (st : List (String × α)) (k : String) (v : α) :
    List (String × α) :=
  if (st.lookup k).isSome then
    st.map (fun p => if p.1 = k then (k, v) else p)
  else st ++ [(k, v)]

/-- The body of the per-link loop of `get_current_documents_state`: skip
links with an empty stripped text, skip documents whose download raises a
request exception (`download _ = none`), skip documents for which any later
step (hash computation included) raises — the two `except` clauses —
otherwise store `{url, hash, content}` under the document name. -/
def scan_step (digest : String → String → String)
    (download : String → Option String)
    (st : FullSnapshot) (link : String × String) : FullSnapshot :=
  let doc_name := link.1
  let doc_url := link.2
  if doc_name ≠ "" then
    match download doc_url with
    | none => st
    | some pdf_content =>
        match get_pdf_content_hash digest pdf_content with
        | none => st
        | some content_hash =>
            dictInsert st doc_name ⟨doc_url, content_hash, pdf_content⟩
  else st

/-- `get_current_documents_state()`.  `listing` is the outcome of the main
page fetch: `none` when `requests.get(BASE_URL)` fails (the function then
returns `None`), otherwise the list of `(link.text.strip(), urljoin(...))`
pairs for the PDF links found on the page.  `download` is the per-document
network oracle. -/
def get_current_documents_state (digest : String → String → String)
    (listing : Option (List (String × String)))
    (download : String → Option String) : Option FullSnapshot :=
  match listing with
  | none => none
  | some pdf_links =>
      some (pdf_links.foldl (scan_step digest download) [])

/-- `state_to_save`: the dict comprehension of `main` that strips the bulky
`content` field, keeping `url` and `hash` of every entry. -/
def strip_content (cur : FullSnapshot) : Snapshot :=
  cur.map (fun p => (p.1, { url := p.2.url, hash := p.2.hash }))

/-- The inputs of one run of `main`: the content of `STATE_FILE` as loaded
by `read_json_file` (empty dict when the file does not exist), the content
of `LOG_FILE` likewise, the result of `get_current_documents_state()`
(`none` = fetch failure), the archival network oracle, and today's date. -/
structure RunInput where
  prevState : Snapshot
  existingLog : List Obj
  fetchResult : Option FullSnapshot
  retrieve : String → Option String
  today : String

/-- The observable outcome of one run of `main`: the events detected, the
value written to `LOG_FILE` (`none` = file not written), the value written
to `STATE_FILE` (`none` = file not written), and the archive-file writes. -/
structure RunOutput where
  events : List Obj
  logFile : Option (List Obj)
  stateFile : Option Snapshot
  archiveWrites : List (String × String)

/-- `main()`: compares states and persists the log and the checkpoint.  The
log is written only when events were detected (as `existing ++ events`);
the checkpoint is always written when the fetch succeeded; nothing is
written when the fetch failed. -/
def main_run (inp : RunInput) : RunOutput :=
  match inp.fetchResult with
  | none =>
      { events := [], logFile := none, stateFile := none, archiveWrites := [] }
  | some current_state =>
      let r := compare_states inp.retrieve inp.today inp.prevState current_state
      { events := r.1
        logFile := if r.1.isEmpty then none else some (inp.existingLog ++ r.1)
        stateFile := some (strip_content current_state)
        archiveWrites := r.2 }

/-- `read_json_file(LOG_FILE)` on a later run: returns the stored list, or
`[]` when the file does not exist. -/
def read_log_file (file : Option (List Obj)) : List Obj := file.getD []

/-- `read_json_file(STATE_FILE)` on a later run: returns the stored dict,
or `{}` when the file does not exist. -/
def read_state_file (file : Option Snapshot) : Snapshot := file.getD []

/-- The content of `LOG_FILE` after a run, given that it held
`inp.existingLog` before (an unwritten file keeps its old content). -/
def log_after_run (inp : RunInput) : List Obj :=
  match (main_run inp).logFile with
  | some l => l
  | none => inp.existingLog

/-- `event["type"]` equals the given tag. -/
def hasType (t : String) (e : Obj) : Bool :=
  decide (e.lookup "type" = some (J.str t))

/-- `event["document"]` equals the given name. -/
def hasDoc (d : String) (e : Obj) : Bool :=
  decide (e.lookup "document" = some (J.str d))

/-- The document name recorded in an event. -/
def docName (e : Obj) : String :=
  match e.lookup "document" with
  | some (J.str s) => s
  | _ => ""

/-! ## Helper lemmas -/

theorem mem_sortStr {a : String} {l : List String} : a ∈ sortStr l ↔ a ∈ l :=
  (List.perm_insertionSort _ l).mem_iff

theorem nodup_sortStr {l : List String} (h : l.Nodup) : (sortStr l).Nodup :=
  ((List.perm_insertionSort _ l).nodup_iff).mpr h

theorem sorted_sortStr (l : List String) : List.Sorted pyLe (sortStr l) :=
  List.sorted_insertionSort _ l

theorem mem_newDocs {old : Snapshot} {cur : FullSnapshot} {name : String} :
    name ∈ newDocs old cur ↔ name ∈ keys cur ∧ name ∉ keys old := by
  simp [newDocs, sortStr, List.mem_insertionSort, List.mem_filter]

theorem mem_removedDocs {old : Snapshot} {cur : FullSnapshot} {name : String} :
    name ∈ removedDocs old cur ↔ name ∈ keys old ∧ name ∉ keys cur := by
  simp [removedDocs, sortStr, List.mem_insertionSort, List.mem_filter]

theorem mem_updatedDocs {old : Snapshot} {cur : FullSnapshot} {name : String} :
    name ∈ updatedDocs old cur ↔
      (name ∈ keys old ∧ name ∈ keys cur) ∧
        (oldInfo old name).hash ≠ (curInfo cur name).hash := by
  simp [updatedDocs, commonDocs, sortStr, List.mem_insertionSort, List.mem_filter]

theorem nodup_newDocs {old : Snapshot} {cur : FullSnapshot}
    (hcur : (keys cur).Nodup) : (newDocs old cur).Nodup :=
  nodup_sortStr (hcur.filter _)

theorem nodup_removedDocs {old : Snapshot} {cur : FullSnapshot}
    (hold : (keys old).Nodup) : (removedDocs old cur).Nodup :=
  nodup_sortStr (hold.filter _)

theorem nodup_updatedDocs {old : Snapshot} {cur : FullSnapshot}
    (hold : (keys old).Nodup) : (updatedDocs old cur).Nodup :=
  (nodup_sortStr (hold.filter _)).filter _

theorem lookup_type_mkNew (t d u : String) :
    (mkNew t d u).lookup "type" = some (J.str "NEW") := rfl

theorem lookup_doc_mkNew (t d u : String) :
    (mkNew t d u).lookup "document" = some (J.str d) := rfl

theorem lookup_type_mkRemoved (t d : String) :
    (mkRemoved t d).lookup "type" = some (J.str "REMOVED") := rfl

theorem lookup_doc_mkRemoved (t d : String) :
    (mkRemoved t d).lookup "document" = some (J.str d) := rfl

theorem lookup_type_mkUpdated (t d u : String) (a : Option String) :
    (mkUpdated t d u a).lookup "type" = some (J.str "UPDATED") := rfl

theorem lookup_doc_mkUpdated (t d u : String) (a : Option String) :
    (mkUpdated t d u a).lookup "document" = some (J.str d) := rfl

theorem countP_decide_nodup {l : List String} (h : l.Nodup) (n : String) :
    l.countP (fun d => decide (d = n)) = if n ∈ l then 1 else 0 := by
  have e : l.countP (fun d => decide (d = n)) = l.count n := by
    rw [List.count_eq_countP]
    exact List.countP_congr (by intro a _; simp)
  rw [e]
  split
  · exact List.count_eq_one_of_mem h (by assumption)
  · exact List.count_eq_zero_of_not_mem (by assumption)

theorem countP_seg {l : List String} (f : String → Obj) (p : Obj → Bool)
    (n : String) (hf : ∀ d, p (f d) = decide (d = n)) (h : l.Nodup) :
    (l.map f).countP p = if n ∈ l then 1 else 0 := by
  rw [List.countP_map]
  rw [List.countP_congr (q := fun d => decide (d = n))
        (fun a _ => by simp [Function.comp, hf])]
  exact countP_decide_nodup h n

theorem countP_seg_zero {l : List String} (f : String → Obj) (p : Obj → Bool)
    (hf : ∀ d, p (f d) = false) : (l.map f).countP p = 0 := by
  rw [List.countP_map]
  rw [List.countP_congr (q := fun _ => false)
        (fun a _ => by simp [Function.comp, hf])]
  simp

/-! ## C1: reconciliation emits exactly the right events -/

/-- C1: for snapshots with unique keys, `compare_states` emits exactly one
NEW event for each name in the current snapshot only, exactly one REMOVED
event for each name in the previous snapshot only, exactly one UPDATED
event for each shared name whose hashes differ, and no event at all for a
shared name with equal hashes (whatever its locations are). -/
theorem compare_states_event_counts
    (retrieve : String → Option String) (today : String)
    (old : Snapshot) (cur : FullSnapshot)
    (hold : (keys old).Nodup) (hcur : (keys cur).Nodup) (name : String) :
    ((compare_states retrieve today old cur).1.countP
        (fun e => hasType "NEW" e && hasDoc name e)
      = if name ∈ keys cur ∧ name ∉ keys old then 1 else 0)
    ∧ ((compare_states retrieve today old cur).1.countP
        (fun e => hasType "REMOVED" e && hasDoc name e)
      = if name ∈ keys old ∧ name ∉ keys cur then 1 else 0)
    ∧ ((compare_states retrieve today old cur).1.countP
        (fun e => hasType "UPDATED" e && hasDoc name e)
      = if (name ∈ keys old ∧ name ∈ keys cur)
            ∧ (oldInfo old name).hash ≠ (curInfo cur name).hash
        then 1 else 0)
    ∧ (name ∈ keys old → name ∈ keys cur →
        (oldInfo old name).hash = (curInfo cur name).hash →
        (compare_states retrieve today old cur).1.countP
          (fun e => hasDoc name e) = 0) := by
  refine ⟨?_, ?_, ?_, ?_⟩
  · rw [show (compare_states retrieve today old cur).1
        = (newDocs old cur).map (fun d => mkNew today d (curInfo cur d).url)
          ++ (removedDocs old cur).map (fun d => mkRemoved today d)
          ++ (updatedDocs old cur).map
              (fun d => mkUpdated today d (curInfo cur d).url
                (archOutcome retrieve today old d)) from rfl]
    rw [List.countP_append, List.countP_append]
    rw [countP_seg _ _ name
          (fun d => by simp [hasType, hasDoc, lookup_type_mkNew, lookup_doc_mkNew])
          (nodup_newDocs hcur)]
    rw [countP_seg_zero _ _
          (fun d => by simp [hasType, lookup_type_mkRemoved])]
    rw [countP_seg_zero _ _
          (fun d => by simp [hasType, lookup_type_mkUpdated])]
    rw [if_congr mem_newDocs rfl rfl]
    omega
  · rw [show (compare_states retrieve today old cur).1
        = (newDocs old cur).map (fun d => mkNew today d (curInfo cur d).url)
          ++ (removedDocs old cur).map (fun d => mkRemoved today d)
          ++ (updatedDocs old cur).map
              (fun d => mkUpdated today d (curInfo cur d).url
                (archOutcome retrieve today old d)) from rfl]
    rw [List.countP_append, List.countP_append]
    rw [countP_seg_zero _ _
          (fun d => by simp [hasType, lookup_type_mkNew])]
    rw [countP_seg _ _ name
          (fun d => by simp [hasType, hasDoc, lookup_type_mkRemoved, lookup_doc_mkRemoved])
          (nodup_removedDocs hold)]
    rw [countP_seg_zero _ _
          (fun d => by simp [hasType, lookup_type_mkUpdated])]
    rw [if_congr mem_removedDocs rfl rfl]
    omega
  · rw [show (compare_states retrieve today old cur).1
        = (newDocs old cur).map (fun d => mkNew today d (curInfo cur d).url)
          ++ (removedDocs old cur).map (fun d => mkRemoved today d)
          ++ (updatedDocs old cur).map
              (fun d => mkUpdated today d (curInfo cur d).url
                (archOutcome retrieve today old d)) from rfl]
    rw [List.countP_append, List.countP_append]
    rw [countP_seg_zero _ _
          (fun d => by simp [hasType, lookup_type_mkNew])]
    rw [countP_seg_zero _ _
          (fun d => by simp [hasType, lookup_type_mkRemoved])]
    rw [countP_seg _ _ name
          (fun d => by simp [hasType, hasDoc, lookup_type_mkUpdated, lookup_doc_mkUpdated])
          (nodup_updatedDocs hold)]
    rw [if_congr mem_updatedDocs rfl rfl]
    omega
  · intro h1 h2 h3
    rw [show (compare_states retrieve today old cur).1
        = (newDocs old cur).map (fun d => mkNew today d (curInfo cur d).url)
          ++ (removedDocs old cur).map (fun d => mkRemoved today d)
          ++ (updatedDocs old cur).map
              (fun d => mkUpdated today d (curInfo cur d).url
                (archOutcome retrieve today old d)) from rfl]
    rw [List.countP_append, List.countP_append]
    rw [countP_seg _ _ name
          (fun d => by simp [hasDoc, lookup_doc_mkNew]) (nodup_newDocs hcur)]
    rw [countP_seg _ _ name
          (fun d => by simp [hasDoc, lookup_doc_mkRemoved]) (nodup_removedDocs hold)]
    rw [countP_seg _ _ name
          (fun d => by simp [hasDoc, lookup_doc_mkUpdated]) (nodup_updatedDocs hold)]
    rw [if_neg (fun hm => (mem_newDocs.mp hm).2 h1)]
    rw [if_neg (fun hm => (mem_removedDocs.mp hm).2 h2)]
    rw [if_neg (fun hm => (mem_updatedDocs.mp hm).2 h3)]

/-- Witness for C1 at a concrete input: one shared document with a changed
hash is counted exactly once as UPDATED. -/
theorem compare_states_event_counts_witness :
    (compare_states (fun _ => none) "2024-01-01" [("A", ⟨"u1", "h1"⟩)]
        [("A", ⟨"u1", "h2", "c"⟩), ("B", ⟨"u2", "h2", "c"⟩)]).1.countP
      (fun e => hasType "UPDATED" e && hasDoc "A" e) = 1 := by
  have h := compare_states_event_counts (fun _ => none) "2024-01-01"
      [("A", ⟨"u1", "h1"⟩)] [("A", ⟨"u1", "h2", "c"⟩), ("B", ⟨"u2", "h2", "c"⟩)]
      (by decide) (by decide) "A"
  rw [h.2.2.1]
  decide

/-! ## C2: emission order, and what determinism actually holds -/

theorem map_docName_seg {l : List String} {f : String → Obj}
    (hf : ∀ d, docName (f d) = d) : (l.map f).map docName = l := by
  induction l with
  | nil => rfl
  | cons a tl ih => simp [hf, ih]

theorem filter_seg_self {l : List String} {p : Obj → Bool} {f : String → Obj}
    (hf : ∀ d, p (f d) = true) : (l.map f).filter p = l.map f :=
  List.filter_eq_self.mpr (by
    intro e he
    obtain ⟨d, _, rfl⟩ := List.mem_map.mp he
    exact hf d)

theorem filter_seg_nil {l : List String} {p : Obj → Bool} {f : String → Obj}
    (hf : ∀ d, p (f d) = false) : (l.map f).filter p = [] := by
  rw [List.filter_eq_nil_iff]
  intro e he
  obtain ⟨d, _, rfl⟩ := List.mem_map.mp he
  simp [hf]

/-- C2 counterexample: with identical previous snapshot, current snapshot
and day, two runs that differ only in whether the archival re-download
succeeds produce different event lists (the `archived_old_pdf_path` value
differs), so the emitted list is not a function of the snapshots and the
day alone. -/
theorem compare_states_not_determined_by_snapshots :
    (compare_states (fun _ => some "bytes") "2024-01-01"
        [("Doc1", ⟨"u1", "h1"⟩)] [("Doc1", ⟨"u1", "h2", "c2"⟩)]).1
    ≠ (compare_states (fun _ => none) "2024-01-01"
        [("Doc1", ⟨"u1", "h1"⟩)] [("Doc1", ⟨"u1", "h2", "c2"⟩)]).1 := by
  decide

/-- C2 (amended): the emitted list is all NEW events, then all REMOVED
events, then all UPDATED events, each kind-group sorted ascending by
document name; and the output is identical across runs whose previous
snapshot, current snapshot, day *and archival retrieval outcomes* are
identical. -/
theorem compare_states_order_deterministic
    (retrieve retrieve' : String → Option String) (today : String)
    (old : Snapshot) (cur : FullSnapshot) :
    ((compare_states retrieve today old cur).1.filter (hasType "NEW")
       ++ (compare_states retrieve today old cur).1.filter (hasType "REMOVED")
       ++ (compare_states retrieve today old cur).1.filter (hasType "UPDATED")
      = (compare_states retrieve today old cur).1)
    ∧ List.Sorted pyLe
        (((compare_states retrieve today old cur).1.filter
            (hasType "NEW")).map docName)
    ∧ List.Sorted pyLe
        (((compare_states retrieve today old cur).1.filter
            (hasType "REMOVED")).map docName)
    ∧ List.Sorted pyLe
        (((compare_states retrieve today old cur).1.filter
            (hasType "UPDATED")).map docName)
    ∧ ((∀ u, retrieve u = retrieve' u) →
        compare_states retrieve today old cur
          = compare_states retrieve' today old cur) := by
  have hshape : (compare_states retrieve today old cur).1
      = (newDocs old cur).map (fun d => mkNew today d (curInfo cur d).url)
        ++ (removedDocs old cur).map (fun d => mkRemoved today d)
        ++ (updatedDocs old cur).map
            (fun d => mkUpdated today d (curInfo cur d).url
              (archOutcome retrieve today old d)) := rfl
  have hfN : (compare_states retrieve today old cur).1.filter (hasType "NEW")
      = (newDocs old cur).map (fun d => mkNew today d (curInfo cur d).url) := by
    rw [hshape, List.filter_append, List.filter_append]
    rw [filter_seg_self (fun d => rfl)]
    rw [filter_seg_nil (f := fun d => mkRemoved today d) (fun d => rfl)]
    rw [filter_seg_nil
          (f := fun d => mkUpdated today d (curInfo cur d).url
            (archOutcome retrieve today old d)) (fun d => rfl)]
    simp
  have hfR : (compare_states retrieve today old cur).1.filter (hasType "REMOVED")
      = (removedDocs old cur).map (fun d => mkRemoved today d) := by
    rw [hshape, List.filter_append, List.filter_append]
    rw [filter_seg_nil (f := fun d => mkNew today d (curInfo cur d).url)
          (fun d => rfl)]
    rw [filter_seg_self (fun d => rfl)]
    rw [filter_seg_nil
          (f := fun d => mkUpdated today d (curInfo cur d).url
            (archOutcome retrieve today old d)) (fun d => rfl)]
    simp
  have hfU : (compare_states retrieve today old cur).1.filter (hasType "UPDATED")
      = (updatedDocs old cur).map
          (fun d => mkUpdated today d (curInfo cur d).url
            (archOutcome retrieve today old d)) := by
    rw [hshape, List.filter_append, List.filter_append]
    rw [filter_seg_nil (f := fun d => mkNew today d (curInfo cur d).url)
          (fun d => rfl)]
    rw [filter_seg_nil (f := fun d => mkRemoved today d) (fun d => rfl)]
    rw [filter_seg_self (fun d => rfl)]
    simp
  refine ⟨?_, ?_, ?_, ?_, ?_⟩
  · rw [hfN, hfR, hfU, hshape]
  · rw [hfN, map_docName_seg (f := fun d => mkNew today d (curInfo cur d).url)
          (fun d => rfl)]
    exact sorted_sortStr _
  · rw [hfR, map_docName_seg (f := fun d => mkRemoved today d) (fun d => rfl)]
    exact sorted_sortStr _
  · rw [hfU, map_docName_seg (f := fun d => mkUpdated today d (curInfo cur d).url
          (archOutcome retrieve today old d)) (fun d => rfl)]
    exact (sorted_sortStr _).filter _
  · intro h
    have : retrieve = retrieve' := funext h
    rw [this]

/-- Witness for C2 (amended) at a concrete input. -/
theorem compare_states_order_deterministic_witness :
    (compare_states (fun _ => none) "2024-01-01"
        [("B", ⟨"u1", "h1"⟩), ("A", ⟨"u2", "h2"⟩)]
        [("A", ⟨"u2", "h9", "c"⟩)]).1
      = (compare_states (fun u => (fun _ => (none : Option String)) u)
          "2024-01-01" [("B", ⟨"u1", "h1"⟩), ("A", ⟨"u2", "h2"⟩)]
          [("A", ⟨"u2", "h9", "c"⟩)]).1
    ∧ List.Sorted pyLe
        (((compare_states (fun _ => none) "2024-01-01"
            [("B", ⟨"u1", "h1"⟩), ("A", ⟨"u2", "h2"⟩)]
            [("A", ⟨"u2", "h9", "c"⟩)]).1.filter
              (hasType "UPDATED")).map docName) := by
  have h := compare_states_order_deterministic (fun _ => none)
      (fun u => (fun _ => (none : Option String)) u) "2024-01-01"
      [("B", ⟨"u1", "h1"⟩), ("A", ⟨"u2", "h2"⟩)] [("A", ⟨"u2", "h9", "c"⟩)]
  exact ⟨congrArg Prod.fst (h.2.2.2.2 (fun u => rfl)), h.2.2.2.1⟩

/-! ## C3, C4, C5: event contents and failure behaviour -/

theorem compare_states_events_shape (retrieve : String → Option String)
    (today : String) (old : Snapshot) (cur : FullSnapshot) :
    (compare_states retrieve today old cur).1
      = (newDocs old cur).map (fun d => mkNew today d (curInfo cur d).url)
        ++ (removedDocs old cur).map (fun d => mkRemoved today d)
        ++ (updatedDocs old cur).map
            (fun d => mkUpdated today d (curInfo cur d).url
              (archOutcome retrieve today old d)) := rfl

theorem mem_updated_event (retrieve : String → Option String) (today : String)
    (old : Snapshot) (cur : FullSnapshot) (name : String)
    (h1 : name ∈ keys old) (h2 : name ∈ keys cur)
    (h3 : (oldInfo old name).hash ≠ (curInfo cur name).hash) :
    mkUpdated today name (curInfo cur name).url
        (archOutcome retrieve today old name)
      ∈ (compare_states retrieve today old cur).1 := by
  rw [compare_states_events_shape]
  exact List.mem_append_right _
    (List.mem_map_of_mem _ (mem_updatedDocs.mpr ⟨⟨h1, h2⟩, h3⟩))

/-- C3: when the archival re-download of an updated document fails, the
UPDATED event is still emitted, carrying `None` (serialized `null`) in
place of the archive path; every other changed document is still processed;
and the checkpoint is still overwritten with the stripped current
snapshot. -/
theorem archival_failure_does_not_abort
    (retrieve : String → Option String) (today : String)
    (old : Snapshot) (cur : FullSnapshot) (log : List Obj) (name : String)
    (h1 : name ∈ keys old) (h2 : name ∈ keys cur)
    (h3 : (oldInfo old name).hash ≠ (curInfo cur name).hash)
    (h4 : retrieve (oldInfo old name).url = none) :
    mkUpdated today name (curInfo cur name).url none
      ∈ (main_run ⟨old, log, some cur, retrieve, today⟩).events
    ∧ (main_run ⟨old, log, some cur, retrieve, today⟩).stateFile
        = some (strip_content cur)
    ∧ ∀ other, other ∈ keys old → other ∈ keys cur →
        (oldInfo old other).hash ≠ (curInfo cur other).hash →
        mkUpdated today other (curInfo cur other).url
            (archOutcome retrieve today old other)
          ∈ (main_run ⟨old, log, some cur, retrieve, today⟩).events := by
  have hout : (main_run ⟨old, log, some cur, retrieve, today⟩).events
      = (compare_states retrieve today old cur).1 := rfl
  refine ⟨?_, rfl, ?_⟩
  · have harch : archOutcome retrieve today old name = none := by
      simp [archOutcome, h4]
    have := mem_updated_event retrieve today old cur name h1 h2 h3
    rw [harch] at this
    rw [hout]
    exact this
  · intro other k1 k2 k3
    rw [hout]
    exact mem_updated_event retrieve today old cur other k1 k2 k3

/-- Witness for C3 at a concrete input. -/
theorem archival_failure_does_not_abort_witness :
    mkUpdated "2024-01-01" "A" "u1" none
      ∈ (main_run ⟨[("A", ⟨"u1", "h1"⟩)], [],
          some [("A", ⟨"u1", "h2", "c"⟩)], fun _ => none, "2024-01-01"⟩).events
    ∧ (main_run ⟨[("A", ⟨"u1", "h1"⟩)], [],
          some [("A", ⟨"u1", "h2", "c"⟩)], fun _ => none, "2024-01-01"⟩).stateFile
        = some [("A", ⟨"u1", "h2"⟩)] := by
  have h := archival_failure_does_not_abort (fun _ => none) "2024-01-01"
      [("A", ⟨"u1", "h1"⟩)] [("A", ⟨"u1", "h2", "c"⟩)] [] "A"
      (by decide) (by decide) (by decide) rfl
  exact ⟨h.1, by rw [h.2.1]; rfl⟩

/-- C4 counterexample: a document present only in the previous snapshot,
with previous location `"u1"`, produces a REMOVED event that consists of
the date, the kind and the name only — no field of the event holds the
previous location. -/
theorem removed_event_has_no_location :
    (compare_states (fun _ => none) "2024-01-01"
        [("Doc1", ⟨"u1", "h1"⟩)] []).1 = [mkRemoved "2024-01-01" "Doc1"]
    ∧ ∀ e ∈ (compare_states (fun _ => none) "2024-01-01"
        [("Doc1", ⟨"u1", "h1"⟩)] []).1, ∀ kv ∈ e, kv.2 ≠ J.str "u1" := by
  decide

/-- C4 (amended): every REMOVED event consists exactly of the run date, the
kind `REMOVED` and the document name (a name present in the previous
snapshot only); no location field is included. -/
theorem removed_events_shape
    (retrieve : String → Option String) (today : String)
    (old : Snapshot) (cur : FullSnapshot) :
    ∀ e ∈ (compare_states retrieve today old cur).1,
      hasType "REMOVED" e = true →
      ∃ doc, e = mkRemoved today doc ∧ doc ∈ keys old ∧ doc ∉ keys cur := by
  intro e he ht
  rw [compare_states_events_shape] at he
  rcases List.mem_append.mp he with he | he
  · rcases List.mem_append.mp he with he | he
    · obtain ⟨d, _, rfl⟩ := List.mem_map.mp he
      simp [hasType, lookup_type_mkNew] at ht
    · obtain ⟨d, hd, rfl⟩ := List.mem_map.mp he
      exact ⟨d, rfl, mem_removedDocs.mp hd⟩
  · obtain ⟨d, _, rfl⟩ := List.mem_map.mp he
    simp [hasType, lookup_type_mkUpdated] at ht

/-- Witness for C4 (amended) at a concrete input. -/
theorem removed_events_shape_witness :
    ∃ doc, mkRemoved "2024-01-01" "Doc1" = mkRemoved "2024-01-01" doc
      ∧ doc ∈ keys [("Doc1", DocInfo.mk "u1" "h1")]
      ∧ doc ∉ keys ([] : FullSnapshot) :=
  removed_events_shape (fun _ => none) "2024-01-01"
    [("Doc1", ⟨"u1", "h1"⟩)] [] (mkRemoved "2024-01-01" "Doc1")
    (by decide) (by decide)

/-- C5 counterexample: an UPDATED event whose archival failed is serialized
with the field `archived_old_pdf_path` present and bound to JSON `null`
(the Python dict carries `archive_path = None`), not omitted. -/
theorem updated_event_serializes_null :
    (compare_states (fun _ => none) "2024-01-01" [("Doc1", ⟨"u1", "h1"⟩)]
        [("Doc1", ⟨"u1", "h2", "c"⟩)]).1
      = [mkUpdated "2024-01-01" "Doc1" "u1" none]
    ∧ ("archived_old_pdf_path", J.null)
        ∈ mkUpdated "2024-01-01" "Doc1" "u1" none := by
  decide

/-- C5 (amended): NEW and REMOVED events never contain a `null`-valued
field (inapplicable fields are omitted there), but an UPDATED event whose
archival failed carries `archived_old_pdf_path` with value `null`; `null`
never appears under any other key. -/
theorem event_null_value_policy
    (retrieve : String → Option String) (today : String)
    (old : Snapshot) (cur : FullSnapshot) :
    (∀ e ∈ (compare_states retrieve today old cur).1,
       hasType "NEW" e = true ∨ hasType "REMOVED" e = true →
       ∀ kv ∈ e, kv.2 ≠ J.null)
    ∧ (∀ e ∈ (compare_states retrieve today old cur).1,
       ∀ kv ∈ e, kv.2 = J.null →
         kv.1 = "archived_old_pdf_path" ∧ hasType "UPDATED" e = true
           ∧ archOutcome retrieve today old (docName e) = none) := by
  constructor
  · intro e he htype kv hkv
    rw [compare_states_events_shape] at he
    rcases List.mem_append.mp he with he | he
    · rcases List.mem_append.mp he with he | he
      · obtain ⟨d, _, rfl⟩ := List.mem_map.mp he
        simp only [mkNew, List.mem_cons, List.not_mem_nil, or_false] at hkv
        rcases hkv with h | h | h | h <;> simp_all
      · obtain ⟨d, _, rfl⟩ := List.mem_map.mp he
        simp only [mkRemoved, List.mem_cons, List.not_mem_nil, or_false] at hkv
        rcases hkv with h | h | h <;> simp_all
    · obtain ⟨d, _, rfl⟩ := List.mem_map.mp he
      rcases htype with ht | ht <;>
        simp [hasType, lookup_type_mkUpdated] at ht
  · intro e he kv hkv hnull
    rw [compare_states_events_shape] at he
    rcases List.mem_append.mp he with he | he
    · rcases List.mem_append.mp he with he | he
      · obtain ⟨d, _, rfl⟩ := List.mem_map.mp he
        simp only [mkNew, List.mem_cons, List.not_mem_nil, or_false] at hkv
        rcases hkv with h | h | h | h <;> simp_all
      · obtain ⟨d, _, rfl⟩ := List.mem_map.mp he
        simp only [mkRemoved, List.mem_cons, List.not_mem_nil, or_false] at hkv
        rcases hkv with h | h | h <;> simp_all
    · obtain ⟨d, _, rfl⟩ := List.mem_map.mp he
      simp only [mkUpdated, List.mem_cons, List.not_mem_nil, or_false] at hkv
      rcases hkv with h | h | h | h | h
      · simp_all
      · simp_all
      · simp_all
      · simp_all
      · subst h
        cases harch : archOutcome retrieve today old d with
        | some p =>
            rw [harch] at hnull
            simp at hnull
        | none =>
            refine ⟨rfl, rfl, ?_⟩
            show archOutcome retrieve today old d = none
            exact harch

/-- Witness for C5 (amended) at a concrete input. -/
theorem event_null_value_policy_witness :
    ∀ e ∈ (compare_states (fun _ => none) "2024-01-01"
        [("Doc1", ⟨"u1", "h1"⟩)] []).1,
      hasType "NEW" e = true ∨ hasType "REMOVED" e = true →
      ∀ kv ∈ e, kv.2 ≠ J.null :=
  (event_null_value_policy (fun _ => none) "2024-01-01"
    [("Doc1", ⟨"u1", "h1"⟩)] []).1

/-! ## C6: the fingerprint function -/

theorem gpch_none (digest : String → String → String) (c : String) :
    get_pdf_content_hash digest c = none := rfl

/-- C6: `get_pdf_content_hash` never returns a digest: the attribute lookup
`hashlib.sha2sha256` fails (`AttributeError`) for every input, because
`sha2sha256` is not an attribute of `hashlib` — the intended `sha256`
lookup would have succeeded.  This contradicts the function's own
docstring ("Calculates a SHA256 hash for the given PDF content"). -/
theorem get_pdf_content_hash_always_fails
    (digest : String → String → String) (pdf_content : String) :
    get_pdf_content_hash digest pdf_content = none
    ∧ hashlibAttr digest "sha2sha256" = none
    ∧ hashlibAttr digest "sha256" = some (digest "sha256") :=
  ⟨gpch_none digest pdf_content, rfl, rfl⟩

/-! ## C7: successful archival -/

/-- C7: for an updated document whose archival re-download succeeds, the
retrieved bytes (fetched from the previous snapshot's location) are written
to `_archive/<today>_<sanitized-name>_old.pdf`, and the emitted UPDATED
event carries exactly that path. -/
theorem updated_archival_success
    (retrieve : String → Option String) (today : String)
    (old : Snapshot) (cur : FullSnapshot) (name bytes : String)
    (h1 : name ∈ keys old) (h2 : name ∈ keys cur)
    (h3 : (oldInfo old name).hash ≠ (curInfo cur name).hash)
    (h4 : retrieve (oldInfo old name).url = some bytes) :
    (archive_path today name, bytes) ∈ (compare_states retrieve today old cur).2
    ∧ mkUpdated today name (curInfo cur name).url (some (archive_path today name))
        ∈ (compare_states retrieve today old cur).1
    ∧ archive_path today name
        = "_archive/" ++ today ++ "_" ++ sanitize name ++ "_old.pdf" := by
  refine ⟨?_, ?_, ?_⟩
  · refine List.mem_filterMap.mpr ⟨name, mem_updatedDocs.mpr ⟨⟨h1, h2⟩, h3⟩, ?_⟩
    rw [h4]
  · have harch : archOutcome retrieve today old name
        = some (archive_path today name) := by
      simp [archOutcome, h4]
    have := mem_updated_event retrieve today old cur name h1 h2 h3
    rw [harch] at this
    exact this
  · simp [archive_path, archiveFilename, ARCHIVE_DIR, String.append_assoc]

/-- Witness for C7 at a concrete input (note the sanitized name). -/
theorem updated_archival_success_witness :
    (archive_path "2024-01-01" "Doc 1", "bytes")
      ∈ (compare_states (fun _ => some "bytes") "2024-01-01"
          [("Doc 1", ⟨"u1", "h1"⟩)] [("Doc 1", ⟨"u1", "h2", "c"⟩)]).2
    ∧ archive_path "2024-01-01" "Doc 1" = "_archive/2024-01-01_Doc_1_old.pdf" := by
  have h := updated_archival_success (fun _ => some "bytes") "2024-01-01"
      [("Doc 1", ⟨"u1", "h1"⟩)] [("Doc 1", ⟨"u1", "h2", "c"⟩)] "Doc 1" "bytes"
      (by decide) (by decide) (by decide) rfl
  exact ⟨h.1, by decide⟩

/-! ## C8: the audit log is append-only -/

/-- C8: after a run whose fetch succeeded, the log that a subsequent load
returns is `existing ++ events`: it has length `N + M`, its first `N`
entries are the prior log unchanged and in order, and its last `M` entries
are the new events in emission order.  (When no events were detected the
file is left untouched, which reads back as `existing ++ []`.) -/
theorem log_append_roundtrip
    (inp : RunInput) (cur : FullSnapshot) (h : inp.fetchResult = some cur) :
    log_after_run inp = inp.existingLog ++ (main_run inp).events
    ∧ (log_after_run inp).length
        = inp.existingLog.length + (main_run inp).events.length
    ∧ (log_after_run inp).take inp.existingLog.length = inp.existingLog
    ∧ (log_after_run inp).drop inp.existingLog.length = (main_run inp).events := by
  rcases inp with ⟨prev, log, fetch, retr, today⟩
  simp only at h
  subst h
  have hbase : log_after_run ⟨prev, log, some cur, retr, today⟩
      = log ++ (main_run ⟨prev, log, some cur, retr, today⟩).events := by
    by_cases hev : (compare_states retr today prev cur).1.isEmpty
    · have hnil : (compare_states retr today prev cur).1 = [] :=
        List.isEmpty_iff.mp hev
      simp [log_after_run, main_run, hev, hnil]
    · simp [log_after_run, main_run, hev]
  refine ⟨hbase, ?_, ?_, ?_⟩
  · rw [hbase]; exact List.length_append _ _
  · rw [hbase]; exact List.take_left _ _
  · rw [hbase]; exact List.drop_left _ _

/-- Witness for C8 at a concrete input: one prior event, one new event. -/
theorem log_append_roundtrip_witness :
    log_after_run ⟨[], [mkNew "2023-12-31" "X" "u0"],
        some [("A", ⟨"u", "h", "c"⟩)], fun _ => none, "2024-01-01"⟩
      = [mkNew "2023-12-31" "X" "u0"]
        ++ (main_run ⟨[], [mkNew "2023-12-31" "X" "u0"],
              some [("A", ⟨"u", "h", "c"⟩)], fun _ => none, "2024-01-01"⟩).events
    ∧ (log_after_run ⟨[], [mkNew "2023-12-31" "X" "u0"],
        some [("A", ⟨"u", "h", "c"⟩)], fun _ => none, "2024-01-01"⟩).length = 2 := by
  have h := log_append_roundtrip ⟨[], [mkNew "2023-12-31" "X" "u0"],
      some [("A", ⟨"u", "h", "c"⟩)], fun _ => none, "2024-01-01"⟩
      [("A", ⟨"u", "h", "c"⟩)] rfl
  refine ⟨h.1, ?_⟩
  rw [h.2.1]
  decide

/-! ## C9: the checkpoint round-trips -/

/-- C9: the checkpoint written at the end of a successful run is exactly
the content-stripped current snapshot, and loading it back returns that
same value: same document names in the same order, each mapped to the
`url` and `hash` of the corresponding full entry (the `DocInfo` type has
no content field, so no content is persisted). -/
theorem checkpoint_roundtrip
    (inp : RunInput) (cur : FullSnapshot) (h : inp.fetchResult = some cur) :
    read_state_file (main_run inp).stateFile = strip_content cur
    ∧ keys (strip_content cur) = keys cur
    ∧ ∀ p ∈ cur, (p.1, DocInfo.mk p.2.url p.2.hash) ∈ strip_content cur := by
  rcases inp with ⟨prev, log, fetch, retr, today⟩
  simp only at h
  subst h
  refine ⟨rfl, ?_, ?_⟩
  · simp [keys, strip_content]
  · intro p hp
    exact List.mem_map.mpr ⟨p, hp, rfl⟩

/-- Witness for C9 at a concrete input. -/
theorem checkpoint_roundtrip_witness :
    read_state_file (main_run ⟨[], [], some [("A", ⟨"u", "h", "c"⟩)],
        fun _ => none, "2024-01-01"⟩).stateFile
      = strip_content [("A", ⟨"u", "h", "c"⟩)] :=
  (checkpoint_roundtrip ⟨[], [], some [("A", ⟨"u", "h", "c"⟩)],
      fun _ => none, "2024-01-01"⟩ [("A", ⟨"u", "h", "c"⟩)] rfl).1

/-! ## C10: per-document failures yield an empty snapshot, not a fetch failure -/

theorem scan_step_skip (digest : String → String → String)
    (download : String → Option String) (st : FullSnapshot)
    (p : String × String) : scan_step digest download st p = st := by
  unfold scan_step
  by_cases hn : p.1 ≠ ""
  · rw [if_pos hn]
    cases download p.2 with
    | none => rfl
    | some c => rfl
  · rw [if_neg hn]

theorem get_current_documents_state_empty (digest : String → String → String)
    (download : String → Option String) (links : List (String × String)) :
    get_current_documents_state digest (some links) download = some [] := by
  show some (links.foldl (scan_step digest download) []) = some []
  congr 1
  induction links with
  | nil => rfl
  | cons p rest ih =>
      rw [List.foldl_cons, scan_step_skip]
      exact ih

/-- C10: when the main-page fetch succeeds but every per-document step
fails — which in this code is in fact automatic, since the hash computation
raises for every document (see the `sha2sha256` lookup) — the snapshot
builder returns the *empty* snapshot, not the failure value `None`; the run
then proceeds as a success, emitting a REMOVED event for every previously
tracked document (sorted by name) and overwriting the checkpoint with the
empty snapshot.  Only a failing main-page fetch (`listing = none`) ends the
run with neither the log nor the checkpoint written. -/
theorem empty_current_state_proceeds
    (digest : String → String → String) (download : String → Option String)
    (links : List (String × String)) (prev : Snapshot) (log : List Obj)
    (retrieve : String → Option String) (today : String)
    (_hfail : ∀ p ∈ links, p.1 = "" ∨ download p.2 = none ∨
        ∀ c, download p.2 = some c → get_pdf_content_hash digest c = none) :
    get_current_documents_state digest (some links) download = some []
    ∧ (main_run ⟨prev, log,
         get_current_documents_state digest (some links) download,
         retrieve, today⟩).events
        = (sortStr (keys prev)).map (fun d => mkRemoved today d)
    ∧ (main_run ⟨prev, log,
         get_current_documents_state digest (some links) download,
         retrieve, today⟩).stateFile = some []
    ∧ (main_run ⟨prev, log,
         get_current_documents_state digest none download,
         retrieve, today⟩).logFile = none
    ∧ (main_run ⟨prev, log,
         get_current_documents_state digest none download,
         retrieve, today⟩).stateFile = none := by
  have hempty : get_current_documents_state digest (some links) download
      = some [] := get_current_documents_state_empty digest download links
  have hevents : (compare_states retrieve today prev []).1
      = (sortStr (keys prev)).map (fun d => mkRemoved today d) := by
    rw [compare_states_events_shape]
    have hnew : newDocs prev [] = [] := rfl
    have hcommon : commonDocs prev [] = [] := by
      unfold commonDocs
      rw [List.filter_eq_nil_iff.mpr (by intro a _; simp [keys])]
      rfl
    have hupd : updatedDocs prev [] = [] := by
      unfold updatedDocs
      rw [hcommon]
      rfl
    have hrem : removedDocs prev [] = sortStr (keys prev) := by
      unfold removedDocs
      rw [List.filter_eq_self.mpr (by intro a _; simp [keys])]
    rw [hnew, hupd, hrem]
    simp
  rw [hempty]
  exact ⟨rfl, hevents, rfl, rfl, rfl⟩

/-- Witness for C10 at a concrete input: one link whose download fails,
one previously tracked document. -/
theorem empty_current_state_proceeds_witness :
    get_current_documents_state (fun _ _ => "") (some [("Doc1", "u1")])
        (fun _ => none) = some []
    ∧ (main_run ⟨[("Old", ⟨"u0", "h0"⟩)], [],
         get_current_documents_state (fun _ _ => "") (some [("Doc1", "u1")])
           (fun _ => none),
         fun _ => none, "2024-01-01"⟩).events
        = (sortStr (keys [("Old", DocInfo.mk "u0" "h0")])).map
            (fun d => mkRemoved "2024-01-01" d) := by
  have h := empty_current_state_proceeds (fun _ _ => "") (fun _ => none)
      [("Doc1", "u1")] [("Old", ⟨"u0", "h0"⟩)] [] (fun _ => none) "2024-01-01"
      (by intro p _; exact Or.inr (Or.inl rfl))
  exact ⟨h.1, h.2.1⟩

end EmaScout
